import Mathlib

/-!
Shallow embedding of `src/main.rs` (git_info): a line-oriented parser for
`git status --porcelain=v2 -b` output and the prompt renderer.

Strings are modelled as lists of characters, and the source's byte-index
slice `&h[..7]` by walking the UTF-8 byte sizes of the characters
(`takeBytes`): the slice succeeds exactly when byte index 7 is within the
string and on a character boundary, and the source's panic on any other
oid is modelled as `none`.
`u32` counters are modelled as `Nat`: each parsed line adds at most 1, and
`str::parse::<u32>` checks the 32-bit bound explicitly below.
-/

abbrev Str := List Char

def chars (s : String) : Str := s.toList

/-- Rust `char::is_whitespace`: the Unicode White_Space property. -/
def isWS (c : Char) : Bool :=
  c.toNat = 0x20 || (0x09 ≤ c.toNat && c.toNat ≤ 0x0D) || c.toNat = 0x85 ||
    c.toNat = 0xA0 || c.toNat = 0x1680 || (0x2000 ≤ c.toNat && c.toNat ≤ 0x200A) ||
    c.toNat = 0x2028 || c.toNat = 0x2029 || c.toNat = 0x202F || c.toNat = 0x205F ||
    c.toNat = 0x3000

/-- Rust `str::split_whitespace`: maximal runs of non-whitespace characters,
empty pieces skipped. -/
def rustWords (s : Str) : List Str := (s.splitOnP isWS).filter (fun w => !w.isEmpty)

/-- Rust `str::starts_with` for a two-character ASCII pattern. -/
def startsWith2 (a b : Char) : Str → Bool
  | c1 :: c2 :: _ => c1 == a && c2 == b
  | _ => false

/-- Decimal value of a digit string. -/
def digitsVal (s : Str) : Nat := s.foldl (fun a c => a * 10 + (c.toNat - 48)) 0

/-- Rust `str::parse::<u32>`: optional leading `+`, then one or more ASCII
digits, and the value must fit in 32 bits; anything else is `Err`. -/
def rustParseU32 (s : Str) : Option Nat :=
  let t := match s with
    | '+' :: r => r
    | _ => s
  if !t.isEmpty && t.all Char.isDigit && digitsVal t < 4294967296 then
    some (digitsVal t)
  else none

/-- Rust `str::strip_prefix` for a one-character pattern. -/
def stripChar (c : Char) : Str → Option Str
  | d :: rest => if d = c then some rest else none
  | [] => none

/-- The accumulator struct `RepoStatus` (src/main.rs lines 37-47). -/
structure RepoStatus where
  branch_head : Option Str
  branch_oid : Option Str
  ahead : Nat
  behind : Nat
  staged : Nat
  unstaged : Nat
  untracked : Nat
deriving DecidableEq, Repr

/-- `#[derive(Default)]`: all fields absent / zero. -/
def RepoStatus.default : RepoStatus := ⟨none, none, 0, 0, 0, 0, 0⟩

/-- One iteration of the `branch.ab` token loop (src/main.rs lines 65-70):
a `+`-prefixed token assigns `ahead`, a `-`-prefixed token assigns `behind`,
a failed numeric parse yields 0, any other token is skipped. -/
def abStep (st : RepoStatus) (t : Str) : RepoStatus :=
  match stripChar '+' t with
  | some n => { st with ahead := (rustParseU32 n).getD 0 }
  | none =>
    match stripChar '-' t with
    | some n => { st with behind := (rustParseU32 n).getD 0 }
    | none => st

/-- The `for token in words` loop of the `branch.ab` arm (src/main.rs lines 64-71). -/
def applyAB (st : RepoStatus) : List Str → RepoStatus
  | [] => st
  | t :: rest => applyAB (abStep st t) rest

/-- `RepoStatus::parse_header_line` (src/main.rs lines 51-75): strip the
leading two characters, split into whitespace tokens, dispatch on the first. -/
def RepoStatus.parse_header_line (st : RepoStatus) (line : Str) : RepoStatus :=
  match rustWords (line.drop 2) with
  | [] => st
  | w :: rest =>
    if w = chars "branch.oid" then
      match rest with
      | oid :: _ => { st with branch_oid := some oid }
      | [] => st
    else if w = chars "branch.head" then
      match rest with
      | head :: _ => { st with branch_head := some head }
      | [] => st
    else if w = chars "branch.ab" then
      applyAB st rest
    else st

/-- The status-code token: second whitespace token of the record line,
defaulting to ".." when absent (src/main.rs line 92). -/
def codeXY (line : Str) : Str := ((rustWords line).drop 1).headD (chars "..")

/-- `xy.chars().nth(0).unwrap_or('.')` (src/main.rs line 94). -/
def codeX (line : Str) : Char := (codeXY line).headD '.'

/-- `xy.chars().nth(1).unwrap_or('.')` (src/main.rs line 95). -/
def codeY (line : Str) : Char := ((codeXY line).drop 1).headD '.'

/-- The change test of src/main.rs lines 97 and 100: not `'.'` and not `' '`. -/
def isChangeChar (c : Char) : Bool := c != '.' && c != ' '

/-- `if x != '.' && x != ' ' { self.staged += 1 }` (src/main.rs lines 97-99). -/
def stagedStep (st : RepoStatus) (line : Str) : RepoStatus :=
  if isChangeChar (codeX line) then { st with staged := st.staged + 1 } else st

/-- `if y != '.' && y != ' ' { self.unstaged += 1 }` (src/main.rs lines 100-102). -/
def unstagedStep (st : RepoStatus) (line : Str) : RepoStatus :=
  if isChangeChar (codeY line) then { st with unstaged := st.unstaged + 1 } else st

/-- The change-record tail of `parse_record_line` (src/main.rs lines 88-102). -/
def changeRecord (st : RepoStatus) (line : Str) : RepoStatus :=
  unstagedStep (stagedStep st line) line

/-- `RepoStatus::parse_record_line` (src/main.rs lines 78-102). -/
def RepoStatus.parse_record_line (st : RepoStatus) (line : Str) : RepoStatus :=
  if startsWith2 '?' ' ' line then { st with untracked := st.untracked + 1 }
  else if startsWith2 '!' ' ' line then st
  else changeRecord st line

/-- One iteration of the main loop (src/main.rs lines 24-30): header lines
start with the marker, everything else is a record line. -/
def parseLine (st : RepoStatus) (line : Str) : RepoStatus :=
  if startsWith2 '#' ' ' line then st.parse_header_line line
  else st.parse_record_line line

/-- Rust `str::lines`: split on newline, drop a final empty piece, strip one
trailing carriage return from each line. -/
def stripCR (s : Str) : Str :=
  match s.getLast? with
  | some c => if c = '\x0d' then s.dropLast else s
  | none => s

def rustLines (s : Str) : List Str :=
  let pieces := s.splitOnP (fun c => c == '\n')
  let pieces := if pieces.getLast? = some ([] : Str) then pieces.dropLast else pieces
  pieces.map stripCR

/-- The whole parsing pass of `main` over a list of lines. -/
def parseLines (ls : List Str) : RepoStatus := ls.foldl parseLine RepoStatus.default

/-- The whole parsing pass of `main` over raw input text. -/
def parseText (s : Str) : RepoStatus := parseLines (rustLines s)

/-- Rust `char::len_utf8`: the number of UTF-8 bytes encoding the character. -/
def charUtf8Size (c : Char) : Nat :=
  if c.toNat < 0x80 then 1
  else if c.toNat < 0x800 then 2
  else if c.toNat < 0x10000 then 3
  else 4

/-- The byte slice `&h[..n]` of Rust: take characters until exactly `n` bytes
are consumed; `none` models the panic when `n` exceeds the byte length or
falls inside a multi-byte character (not a character boundary). -/
def takeBytes (n : Nat) : Str → Option Str
  | [] => if n = 0 then some [] else none
  | c :: rest =>
    if n = 0 then some []
    else if charUtf8Size c ≤ n then (takeBytes (n - charUtf8Size c) rest).map (fun t => c :: t)
    else none

/-- `branch_oid.map(|h| &h[..7])`: `none` models the panic of the byte slice;
`unwrap_or("DETACHED")` otherwise. -/
def shortOid : Option Str → Option Str
  | some h => takeBytes 7 h
  | none => some (chars "DETACHED")

/-- Branch-label selection in `render_prompt` (src/main.rs lines 107-117). -/
def branchLabel (st : RepoStatus) : Option Str :=
  match st.branch_head with
  | some name => if name = chars "(detached)" then shortOid st.branch_oid else some name
  | none => shortOid st.branch_oid

def escChar : Char := '\x1b'

/-- Digits of a natural number, as in Rust's `Display` for `u32`. -/
def natStr (n : Nat) : Str := (Nat.repr n).toList

/-- The chunk of the format string before the text (src/main.rs line 140). -/
def colorOn : Str := escChar :: chars "[38;2;255;255;255;48;2;6;150;154m "

/-- The chunk of the format string after the text (src/main.rs line 140). -/
def colorOff : Str := ' ' :: escChar :: chars "[0m"

/-- `RepoStatus::render_prompt` (src/main.rs lines 105-141): build the text by
sequential appends, then wrap it in the colour escape. -/
def RepoStatus.render_prompt (st : RepoStatus) : Option Str :=
  (branchLabel st).map fun lbl =>
    let text := ' ' :: lbl
    let text := if 0 < st.ahead then text ++ chars " ↑" ++ natStr st.ahead else text
    let text := if 0 < st.behind then text ++ chars " ↓" ++ natStr st.behind else text
    let text := if 0 < st.staged then text ++ chars " [!" ++ natStr st.staged ++ chars "]" else text
    let text := if 0 < st.unstaged then text ++ chars " [+" ++ natStr st.unstaged ++ chars "]" else text
    let text := if 0 < st.untracked then text ++ chars " [?" ++ natStr st.untracked ++ chars "]" else text
    colorOn ++ text ++ colorOff

/-! Spec-side definitions, written from the claims' words, for comparison with
the source-side functions above. -/

/-- Spec-side: a hexadecimal string of exactly 40 characters. -/
def isHexDigit (c : Char) : Bool := c.isDigit || ('a' ≤ c && c ≤ 'f') || ('A' ≤ c && c ≤ 'F')

def is40Hex (s : Str) : Bool := s.length == 40 && s.all isHexDigit

/-- Every `branch.oid` header line of the input carries a 40-hex value token. -/
def oidToken (line : Str) : Option Str :=
  if startsWith2 '#' ' ' line then
    match rustWords (line.drop 2) with
    | w :: oid :: _ => if w = chars "branch.oid" then some oid else none
    | _ => none
  else none

def headerOidsValid (s : Str) : Bool :=
  (rustLines s).all fun line =>
    match oidToken line with
    | some t => is40Hex t
    | none => true

/-- Spec-side: the assembled text as the claim describes it, segment by
segment, each conditional on its counter, in the stated order. -/
def specText (lbl : Str) (st : RepoStatus) : Str :=
  chars " " ++ lbl
    ++ (if 0 < st.ahead then chars " ↑" ++ natStr st.ahead else [])
    ++ (if 0 < st.behind then chars " ↓" ++ natStr st.behind else [])
    ++ (if 0 < st.staged then chars " [!" ++ natStr st.staged ++ chars "]" else [])
    ++ (if 0 < st.unstaged then chars " [+" ++ natStr st.unstaged ++ chars "]" else [])
    ++ (if 0 < st.untracked then chars " [?" ++ natStr st.untracked ++ chars "]" else [])

/-- Spec-side: the colour wrapping as the claim describes it: the fixed escape
sequence, a leading and a trailing space inside the coloured region, and a
trailing reset escape. -/
def specWrap (t : Str) : Str :=
  (escChar :: chars "[38;2;255;255;255;48;2;6;150;154m") ++ chars " " ++ t ++ chars " "
    ++ (escChar :: chars "[0m")

/-! Helper lemmas: frame properties of the individual parsing steps. -/

theorem abStep_frame (st : RepoStatus) (t : Str) :
    (abStep st t).staged = st.staged ∧ (abStep st t).unstaged = st.unstaged ∧
      (abStep st t).untracked = st.untracked ∧ (abStep st t).branch_head = st.branch_head ∧
      (abStep st t).branch_oid = st.branch_oid := by
  unfold abStep
  cases stripChar '+' t with
  | some n => exact ⟨rfl, rfl, rfl, rfl, rfl⟩
  | none =>
    cases stripChar '-' t with
    | some n => exact ⟨rfl, rfl, rfl, rfl, rfl⟩
    | none => exact ⟨rfl, rfl, rfl, rfl, rfl⟩

theorem applyAB_frame (toks : List Str) (st : RepoStatus) :
    (applyAB st toks).staged = st.staged ∧ (applyAB st toks).unstaged = st.unstaged ∧
      (applyAB st toks).untracked = st.untracked ∧
      (applyAB st toks).branch_head = st.branch_head ∧
      (applyAB st toks).branch_oid = st.branch_oid := by
  induction toks generalizing st with
  | nil => exact ⟨rfl, rfl, rfl, rfl, rfl⟩
  | cons t rest ih =>
    have h1 := abStep_frame st t
    have h2 := ih (abStep st t)
    exact ⟨h2.1.trans h1.1, h2.2.1.trans h1.2.1, h2.2.2.1.trans h1.2.2.1,
      h2.2.2.2.1.trans h1.2.2.2.1, h2.2.2.2.2.trans h1.2.2.2.2⟩

theorem parse_header_staged (st : RepoStatus) (line : Str) :
    (st.parse_header_line line).staged = st.staged := by
  unfold RepoStatus.parse_header_line
  repeat' split
  all_goals first
    | rfl
    | exact (applyAB_frame _ st).1

theorem parse_header_unstaged (st : RepoStatus) (line : Str) :
    (st.parse_header_line line).unstaged = st.unstaged := by
  unfold RepoStatus.parse_header_line
  repeat' split
  all_goals first
    | rfl
    | exact (applyAB_frame _ st).2.1

theorem parse_header_untracked (st : RepoStatus) (line : Str) :
    (st.parse_header_line line).untracked = st.untracked := by
  unfold RepoStatus.parse_header_line
  repeat' split
  all_goals first
    | rfl
    | exact (applyAB_frame _ st).2.2.1

theorem stagedStep_frame (st : RepoStatus) (line : Str) :
    (stagedStep st line).unstaged = st.unstaged ∧
      (stagedStep st line).untracked = st.untracked ∧
      (stagedStep st line).branch_head = st.branch_head ∧
      (stagedStep st line).branch_oid = st.branch_oid ∧
      (stagedStep st line).ahead = st.ahead ∧ (stagedStep st line).behind = st.behind ∧
      st.staged ≤ (stagedStep st line).staged := by
  unfold stagedStep
  split
  · exact ⟨rfl, rfl, rfl, rfl, rfl, rfl, Nat.le_succ _⟩
  · exact ⟨rfl, rfl, rfl, rfl, rfl, rfl, Nat.le_refl _⟩

theorem unstagedStep_frame (st : RepoStatus) (line : Str) :
    (unstagedStep st line).staged = st.staged ∧
      (unstagedStep st line).untracked = st.untracked ∧
      (unstagedStep st line).branch_head = st.branch_head ∧
      (unstagedStep st line).branch_oid = st.branch_oid ∧
      (unstagedStep st line).ahead = st.ahead ∧ (unstagedStep st line).behind = st.behind ∧
      st.unstaged ≤ (unstagedStep st line).unstaged := by
  unfold unstagedStep
  split
  · exact ⟨rfl, rfl, rfl, rfl, rfl, rfl, Nat.le_succ _⟩
  · exact ⟨rfl, rfl, rfl, rfl, rfl, rfl, Nat.le_refl _⟩

theorem changeRecord_untracked (st : RepoStatus) (line : Str) :
    (changeRecord st line).untracked = st.untracked := by
  unfold changeRecord
  exact (unstagedStep_frame (stagedStep st line) line).2.1.trans (stagedStep_frame st line).2.1

theorem changeRecord_oid (st : RepoStatus) (line : Str) :
    (changeRecord st line).branch_oid = st.branch_oid := by
  unfold changeRecord
  exact (unstagedStep_frame (stagedStep st line) line).2.2.2.1.trans
    (stagedStep_frame st line).2.2.2.1

theorem parse_record_oid (st : RepoStatus) (line : Str) :
    (st.parse_record_line line).branch_oid = st.branch_oid := by
  unfold RepoStatus.parse_record_line
  split
  · rfl
  · split
    · rfl
    · exact changeRecord_oid st line

theorem parse_header_oid (st : RepoStatus) (line : Str) (hs : startsWith2 '#' ' ' line = true) :
    ∀ o, (st.parse_header_line line).branch_oid = some o →
      st.branch_oid = some o ∨ oidToken line = some o := by
  intro o ho
  unfold RepoStatus.parse_header_line at ho
  unfold oidToken
  rw [if_pos hs]
  cases hw : rustWords (line.drop 2) with
  | nil =>
    simp only [hw] at ho
    exact Or.inl ho
  | cons w rest =>
    cases rest with
    | nil =>
      simp only [hw] at ho
      left
      by_cases h1 : w = chars "branch.oid"
      · rw [if_pos h1] at ho; exact ho
      · rw [if_neg h1] at ho
        by_cases h2 : w = chars "branch.head"
        · rw [if_pos h2] at ho; exact ho
        · rw [if_neg h2] at ho
          by_cases h3 : w = chars "branch.ab"
          · rw [if_pos h3] at ho
            rw [(applyAB_frame [] st).2.2.2.2] at ho
            exact ho
          · rw [if_neg h3] at ho; exact ho
    | cons t r =>
      simp only [hw] at ho ⊢
      by_cases h1 : w = chars "branch.oid"
      · rw [if_pos h1] at ho
        right
        rw [if_pos h1]
        exact ho
      · left
        rw [if_neg h1] at ho
        by_cases h2 : w = chars "branch.head"
        · rw [if_pos h2] at ho; exact ho
        · rw [if_neg h2] at ho
          by_cases h3 : w = chars "branch.ab"
          · rw [if_pos h3] at ho
            rw [(applyAB_frame (t :: r) st).2.2.2.2] at ho
            exact ho
          · rw [if_neg h3] at ho; exact ho

theorem parseLine_oid (st : RepoStatus) (line : Str) :
    ∀ o, (parseLine st line).branch_oid = some o →
      st.branch_oid = some o ∨ oidToken line = some o := by
  intro o ho
  unfold parseLine at ho
  by_cases hs : startsWith2 '#' ' ' line = true
  · rw [if_pos hs] at ho
    exact parse_header_oid st line hs o ho
  · rw [if_neg hs] at ho
    rw [parse_record_oid st line] at ho
    exact Or.inl ho

theorem foldl_oid_inv (P : Str → Prop) :
    ∀ (ls : List Str) (st : RepoStatus),
      (∀ line ∈ ls, ∀ t, oidToken line = some t → P t) →
      (∀ o, st.branch_oid = some o → P o) →
      ∀ o, (ls.foldl parseLine st).branch_oid = some o → P o := by
  intro ls
  induction ls with
  | nil =>
    intro st _ hst o ho
    exact hst o ho
  | cons l rest ih =>
    intro st hls hst o ho
    refine ih (parseLine st l) (fun line hm => hls line (List.mem_cons_of_mem _ hm)) ?_ o ho
    intro o' ho'
    rcases parseLine_oid st l o' ho' with h | h
    · exact hst o' h
    · exact hls l (List.mem_cons_self _ _) o' h

theorem takeBytes_ascii (s : Str) :
    ∀ n, (∀ c ∈ s, c.toNat < 128) → n ≤ s.length → (takeBytes n s).isSome = true := by
  induction s with
  | nil =>
    intro n _ hn
    have h0 : n = 0 := Nat.le_zero.mp hn
    subst h0
    rfl
  | cons c rest ih =>
    intro n hall hn
    by_cases hn0 : n = 0
    · subst hn0
      rfl
    · have hc : charUtf8Size c = 1 := by
        unfold charUtf8Size
        rw [if_pos (hall c (List.mem_cons_self _ _))]
      unfold takeBytes
      rw [if_neg hn0, hc, if_pos (Nat.one_le_iff_ne_zero.mpr hn0)]
      have hrest : (takeBytes (n - 1) rest).isSome = true := by
        refine ih (n - 1) (fun d hd => hall d (List.mem_cons_of_mem _ hd)) ?_
        simp only [List.length_cons] at hn
        omega
      obtain ⟨t, ht⟩ := Option.isSome_iff_exists.mp hrest
      rw [ht]
      rfl

/-! Claim theorems. -/

/-- C1 counterexample: a RepoStatus with a present three-character branch_oid
and no branch_head makes render_prompt fail (the source panics on the byte
slice of the oid), refuting totality for oids of arbitrary length. -/
theorem C1_counterexample :
    (RepoStatus.mk none (some (chars "abc")) 0 0 0 0 0).render_prompt = none := by decide

/-- C1 (amended): the renderer is a pure, deterministic function, and it is
total on every RepoStatus whose branch_oid, when present, can be byte-sliced
at index 7 (byte 7 within the string and on a UTF-8 character boundary);
otherwise the source panics in the slice of the oid.  Byte index 7 is always
sliceable on an ASCII oid of at least 7 characters, such as a 40-hex hash. -/
theorem C1_render_total :
    (∀ st : RepoStatus,
        (∀ o, st.branch_oid = some o → (takeBytes 7 o).isSome = true) →
        (st.render_prompt).isSome = true ∧ st.render_prompt = st.render_prompt)
  ∧ (∀ o : Str, (∀ c ∈ o, c.toNat < 128) → 7 ≤ o.length →
        (takeBytes 7 o).isSome = true) := by
  constructor
  · intro st h
    refine ⟨?_, rfl⟩
    have hb : (branchLabel st).isSome = true := by
      cases hh : st.branch_head with
      | none =>
        cases ho : st.branch_oid with
        | none => simp [branchLabel, hh, ho, shortOid]
        | some o => simp [branchLabel, hh, ho, shortOid, h o ho]
      | some name =>
        by_cases hd : name = chars "(detached)"
        · cases ho : st.branch_oid with
          | none => simp [branchLabel, hh, ho, shortOid, hd]
          | some o => simp [branchLabel, hh, ho, shortOid, hd, h o ho]
        · simp [branchLabel, hh, hd]
    unfold RepoStatus.render_prompt
    obtain ⟨lbl, hl⟩ := Option.isSome_iff_exists.mp hb
    rw [hl]
    rfl
  · exact fun o h hn => takeBytes_ascii o 7 h hn

/-- C1 witness: the all-default RepoStatus satisfies the oid-slice hypothesis
vacuously, and the renderer succeeds on it. -/
theorem C1_witness :
    (RepoStatus.default.render_prompt).isSome = true ∧
      RepoStatus.default.render_prompt = RepoStatus.default.render_prompt :=
  C1_render_total.1 RepoStatus.default (fun _ ho => nomatch ho)

/-- C2 counterexample: parsing the text "# branch.oid zz" stores the
two-character non-hash token verbatim, refuting the 40-hex invariant over
arbitrary input text. -/
theorem C2_counterexample :
    (parseText (chars "# branch.oid zz")).branch_oid = some (chars "zz") ∧
      is40Hex (chars "zz") = false := by decide

/-- C2 (amended): the parser stores branch.oid value tokens verbatim with no
validation; whenever every branch.oid header line of the input carries a
40-character hexadecimal token, a present branch_oid after parsing is such a
string. -/
theorem C2_oid_hex (s : Str) (h : headerOidsValid s = true) :
    ∀ o, (parseText s).branch_oid = some o → is40Hex o = true := by
  have hl : ∀ line ∈ rustLines s, ∀ t, oidToken line = some t → is40Hex t = true := by
    intro line hm t ht
    have hline := List.all_eq_true.mp h line hm
    rw [ht] at hline
    exact hline
  exact foldl_oid_inv (fun t => is40Hex t = true) (rustLines s) RepoStatus.default hl
    (fun _ ho => nomatch ho)

/-- C2 witness: a well-formed branch.oid header line with a 40-hex hash
satisfies the hypothesis, and the stored oid is 40-hex. -/
theorem C2_witness :
    is40Hex (chars "0123456789abcdef0123456789abcdef01234567") = true :=
  C2_oid_hex (chars "# branch.oid 0123456789abcdef0123456789abcdef01234567") (by decide)
    (chars "0123456789abcdef0123456789abcdef01234567") (by decide)

/-- C3 counterexample: a second branch.ab header line lowers ahead from 5 to
1, refuting monotonicity of the ahead counter across processed lines. -/
theorem C3_counterexample :
    (parseLine (parseLine RepoStatus.default (chars "# branch.ab +5"))
        (chars "# branch.ab +1")).ahead <
      (parseLine RepoStatus.default (chars "# branch.ab +5")).ahead := by decide

/-- C3 (amended): the staged, unstaged and untracked counters never decrease
at any parsing step; ahead and behind are set by assignment (last-write-wins)
and can decrease, as the counterexample shows. -/
theorem C3_counters_monotone (st : RepoStatus) (line : Str) :
    st.staged ≤ (parseLine st line).staged ∧
      st.unstaged ≤ (parseLine st line).unstaged ∧
      st.untracked ≤ (parseLine st line).untracked := by
  unfold parseLine
  split
  · exact ⟨(parse_header_staged st line).symm.le, (parse_header_unstaged st line).symm.le,
      (parse_header_untracked st line).symm.le⟩
  · unfold RepoStatus.parse_record_line
    split
    · exact ⟨Nat.le_refl _, Nat.le_refl _, Nat.le_succ _⟩
    · split
      · exact ⟨Nat.le_refl _, Nat.le_refl _, Nat.le_refl _⟩
      · have h1 := stagedStep_frame st line
        have h2 := unstagedStep_frame (stagedStep st line) line
        unfold changeRecord
        refine ⟨?_, ?_, ?_⟩
        · rw [h2.1]
          exact h1.2.2.2.2.2.2
        · exact h1.1.symm.le.trans h2.2.2.2.2.2.2
        · rw [h2.2.1, h1.2.1]

/-- C4: on a record line that is neither untracked nor ignored, the second
whitespace token (defaulting to "..") is read as a code XY; staged is bumped
by 1 exactly when X is neither '.' nor ' ', unstaged by 1 exactly when Y is
neither '.' nor ' ', both may fire on one line, and no other field changes. -/
theorem C4_change_record (st : RepoStatus) (line : Str)
    (h1 : startsWith2 '?' ' ' line = false) (h2 : startsWith2 '!' ' ' line = false) :
    st.parse_record_line line =
      { st with
        staged := st.staged + (if isChangeChar (codeX line) then 1 else 0),
        unstaged := st.unstaged + (if isChangeChar (codeY line) then 1 else 0) } := by
  cases st with
  | mk bh bo ah be sg us ut =>
    simp only [RepoStatus.parse_record_line, h1, h2, Bool.false_eq_true, if_false,
      changeRecord, unstagedStep, stagedStep]
    by_cases hx : isChangeChar (codeX line) = true <;>
      by_cases hy : isChangeChar (codeY line) = true <;>
        simp [hx, hy]

/-- C4 witness: the spec's own example line with code "M." bumps only staged. -/
theorem C4_witness :
    RepoStatus.default.parse_record_line
        (chars "1 M. N... 100644 100644 100644 aaaa bbbb path") =
      { RepoStatus.default with staged := 1 } := by
  rw [C4_change_record RepoStatus.default _ (by decide) (by decide)]
  decide

/-- C5: in the branch.ab token scan, a '+'-prefixed token assigns ahead from
its numeric suffix, a '-'-prefixed token assigns behind likewise, a failed
numeric parse substitutes zero, any other token is skipped, and parsing
"# branch.ab +3 -2" yields ahead = 3 and behind = 2. -/
theorem C5_branch_ab :
    (∀ (st : RepoStatus) (n : Str) (rest : List Str),
        applyAB st (('+' :: n) :: rest) =
          applyAB { st with ahead := (rustParseU32 n).getD 0 } rest)
  ∧ (∀ (st : RepoStatus) (n : Str) (rest : List Str),
        applyAB st (('-' :: n) :: rest) =
          applyAB { st with behind := (rustParseU32 n).getD 0 } rest)
  ∧ (∀ (st : RepoStatus) (t : Str) (rest : List Str),
        t.headD ' ' ≠ '+' → t.headD ' ' ≠ '-' →
        applyAB st (t :: rest) = applyAB st rest)
  ∧ (∀ n : Str, rustParseU32 n = none → ∀ (st : RepoStatus) (rest : List Str),
        applyAB st (('+' :: n) :: rest) = applyAB { st with ahead := 0 } rest)
  ∧ parseLines [chars "# branch.ab +3 -2"] =
      { RepoStatus.default with ahead := 3, behind := 2 } := by
  refine ⟨?_, ?_, ?_, ?_, by decide⟩
  · intro st n rest
    simp [applyAB, abStep, stripChar]
  · intro st n rest
    simp [applyAB, abStep, stripChar]
  · intro st t rest h1 h2
    cases t with
    | nil => simp [applyAB, abStep, stripChar]
    | cons c r =>
      simp only [List.headD_cons] at h1 h2
      simp [applyAB, abStep, stripChar, h1, h2]
  · intro n hn st rest
    simp [applyAB, abStep, stripChar, hn]

/-- C5 witness: a token with an unrecognized first character is skipped by the
scan. -/
theorem C5_witness :
    applyAB RepoStatus.default [chars "x3"] = applyAB RepoStatus.default [] :=
  C5_branch_ab.2.2.1 RepoStatus.default (chars "x3") [] (by decide) (by decide)

/-- C6 counterexample: with branch_head absent and a present two-character
branch_oid, no label is produced at all (the source panics slicing the oid),
refuting the claim's fallback for a present oid of any length. -/
theorem C6_counterexample :
    branchLabel (RepoStatus.mk none (some (chars "ab")) 0 0 0 0 0) = none := by decide

/-- C6 (amended): a present non-detached branch_head is the label verbatim;
otherwise the label is the 7-byte prefix of branch_oid whenever the byte
slice at index 7 succeeds (byte 7 within the string and on a UTF-8 character
boundary; for an ASCII oid such as a 40-hex hash this is its first 7
characters), the source panics when that slice fails, and the label is the
literal "DETACHED" when branch_oid is absent; empty input renders the
DETACHED label with no optional segments. -/
theorem C6_branch_label :
    (∀ (st : RepoStatus) (name : Str), st.branch_head = some name →
        name ≠ chars "(detached)" → branchLabel st = some name)
  ∧ (∀ (st : RepoStatus) (o p : Str),
        (st.branch_head = none ∨ st.branch_head = some (chars "(detached)")) →
        st.branch_oid = some o → takeBytes 7 o = some p → branchLabel st = some p)
  ∧ (∀ st : RepoStatus,
        (st.branch_head = none ∨ st.branch_head = some (chars "(detached)")) →
        st.branch_oid = none → branchLabel st = some (chars "DETACHED"))
  ∧ (parseLines []).render_prompt =
      some ((escChar :: chars "[38;2;255;255;255;48;2;6;150;154m") ++ chars "  DETACHED "
        ++ (escChar :: chars "[0m")) := by
  refine ⟨?_, ?_, ?_, by decide⟩
  · intro st name hh hd
    simp [branchLabel, hh, hd]
  · intro st o p hh ho hp
    rcases hh with hh | hh <;> simp [branchLabel, hh, ho, shortOid, hp]
  · intro st hh ho
    rcases hh with hh | hh <;> simp [branchLabel, hh, ho, shortOid]

/-- C6 witness: with branch_head absent and a 40-hex oid, the label is the
first 7 characters of the hash. -/
theorem C6_witness :
    branchLabel (RepoStatus.mk none
        (some (chars "0123456789abcdef0123456789abcdef01234567")) 0 0 0 0 0) =
      some (chars "0123456") :=
  C6_branch_label.2.1 (RepoStatus.mk none
      (some (chars "0123456789abcdef0123456789abcdef01234567")) 0 0 0 0 0)
    (chars "0123456789abcdef0123456789abcdef01234567") (chars "0123456")
    (Or.inl rfl) rfl (by decide)

theorem ite_append (c : Prop) [Decidable c] (t s : Str) :
    (if c then t ++ s else t) = t ++ (if c then s else []) := by
  split <;> simp

/-- C7: whenever a branch label is produced, the rendered output is exactly
the claim's assembly: a space, the label, then the ahead, behind, staged,
unstaged and untracked segments each present iff its counter is positive, in
that order, wrapped in the fixed colour escape with a leading and trailing
space inside the coloured region and a trailing reset. -/
theorem C7_render_structure (st : RepoStatus) (lbl : Str)
    (h : branchLabel st = some lbl) :
    st.render_prompt = some (specWrap (specText lbl st)) := by
  unfold RepoStatus.render_prompt
  rw [h]
  simp only [Option.map_some']
  congr 1
  have hOn : colorOn = (escChar :: chars "[38;2;255;255;255;48;2;6;150;154m") ++ chars " " := by
    decide
  have hOff : colorOff = chars " " ++ (escChar :: chars "[0m") := by decide
  have hsp : chars " " = [' '] := by decide
  by_cases c1 : 0 < st.ahead <;> by_cases c2 : 0 < st.behind <;>
    by_cases c3 : 0 < st.staged <;> by_cases c4 : 0 < st.unstaged <;>
      by_cases c5 : 0 < st.untracked <;>
        simp [specWrap, specText, hOn, hOff, hsp, c1, c2, c3, c4, c5, List.append_assoc]

/-- C7 witness: a concrete RepoStatus with every counter positive renders to
the spec-side assembly. -/
theorem C7_witness :
    (RepoStatus.mk (some (chars "main")) none 1 2 3 4 5).render_prompt =
      some (specWrap (specText (chars "main")
        (RepoStatus.mk (some (chars "main")) none 1 2 3 4 5))) :=
  C7_render_structure (RepoStatus.mk (some (chars "main")) none 1 2 3 4 5)
    (chars "main") (by decide)

/-- C8 counterexample: the line "? " has a single whitespace token, yet
parse_record_line increments untracked on it, refuting the claim that a
record line with fewer than two tokens never increments a counter. -/
theorem C8_counterexample :
    (rustWords (chars "? ")).length < 2 ∧
      (RepoStatus.default.parse_record_line (chars "? ")).untracked = 1 := by decide

/-- C8 (amended): parse_record_line is total (never panics, by construction of
the embedding), a record line with fewer than two whitespace tokens that does
not begin with "? " leaves the state untouched, and a line beginning with
"? " increments untracked by 1 even when it has fewer than two tokens. -/
theorem C8_short_record_line :
    (∀ (st : RepoStatus) (line : Str), startsWith2 '?' ' ' line = false →
        (rustWords line).length < 2 → st.parse_record_line line = st)
  ∧ (∀ (st : RepoStatus) (line : Str), startsWith2 '?' ' ' line = true →
        st.parse_record_line line = { st with untracked := st.untracked + 1 }) := by
  constructor
  · intro st line hq hlen
    have hxy : codeXY line = chars ".." := by
      unfold codeXY
      cases hw : rustWords line with
      | nil => rfl
      | cons a rest =>
        cases rest with
        | nil => rfl
        | cons b r =>
          rw [hw] at hlen
          simp at hlen
          omega
    have hx : isChangeChar (codeX line) = false := by
      unfold codeX
      rw [hxy]
      decide
    have hy : isChangeChar (codeY line) = false := by
      unfold codeY
      rw [hxy]
      decide
    simp only [RepoStatus.parse_record_line, hq, Bool.false_eq_true, if_false,
      changeRecord, unstagedStep, stagedStep, hx, hy]
    split <;> rfl
  · intro st line hq
    simp only [RepoStatus.parse_record_line, hq, if_true]

/-- C8 witness: the empty line has no tokens and leaves the default state
untouched. -/
theorem C8_witness :
    RepoStatus.default.parse_record_line [] = RepoStatus.default :=
  C8_short_record_line.1 RepoStatus.default [] (by decide) (by decide)

/-- C9: a header line whose first token is none of branch.oid, branch.head,
branch.ab (or that has no tokens at all) leaves every field unchanged, and so
does a header line of a known kind that lacks its value token. -/
theorem C9_header_frame :
    (∀ (st : RepoStatus) (line : Str), startsWith2 '#' ' ' line = true →
        (∀ w, (rustWords (line.drop 2)).head? = some w →
          w ≠ chars "branch.oid" ∧ w ≠ chars "branch.head" ∧ w ≠ chars "branch.ab") →
        st.parse_header_line line = st)
  ∧ (∀ (st : RepoStatus) (line : Str) (w : Str), startsWith2 '#' ' ' line = true →
        rustWords (line.drop 2) = [w] → st.parse_header_line line = st) := by
  constructor
  · intro st line _ hunk
    unfold RepoStatus.parse_header_line
    cases hw : rustWords (line.drop 2) with
    | nil => rfl
    | cons w rest =>
      have h := hunk w (by rw [hw]; rfl)
      simp only [if_neg h.1, if_neg h.2.1, if_neg h.2.2]
  · intro st line w _ hw
    unfold RepoStatus.parse_header_line
    simp only [hw]
    by_cases h1 : w = chars "branch.oid"
    · rw [if_pos h1]
    · rw [if_neg h1]
      by_cases h2 : w = chars "branch.head"
      · rw [if_pos h2]
      · rw [if_neg h2]
        by_cases h3 : w = chars "branch.ab"
        · rw [if_pos h3]; rfl
        · rw [if_neg h3]

/-- C9 witness: the value-less header line "# branch.oid" leaves the default
state untouched. -/
theorem C9_witness :
    RepoStatus.default.parse_header_line (chars "# branch.oid") = RepoStatus.default :=
  C9_header_frame.2 RepoStatus.default (chars "# branch.oid") (chars "branch.oid")
    (by decide) (by decide)

/-- C10: a record line that starts with '?' not followed by a space is handled
by the change-record path (first token discarded, second token, defaulting to
"..", drives the staged/unstaged bumps), and untracked changes only on lines
beginning with exactly "? ". -/
theorem C10_question_no_space :
    (∀ (st : RepoStatus) (line : Str), line.head? = some '?' →
        startsWith2 '?' ' ' line = false →
        st.parse_record_line line = changeRecord st line)
  ∧ (∀ (st : RepoStatus) (line : Str), startsWith2 '?' ' ' line = false →
        (st.parse_record_line line).untracked = st.untracked) := by
  constructor
  · intro st line hhead hq
    have hbang : startsWith2 '!' ' ' line = false := by
      cases line with
      | nil => rfl
      | cons c t =>
        simp only [List.head?_cons, Option.some.injEq] at hhead
        subst hhead
        cases t with
        | nil => rfl
        | cons d r => simp [startsWith2]
    simp only [RepoStatus.parse_record_line, hq, hbang, Bool.false_eq_true, if_false]
  · intro st line hq
    simp only [RepoStatus.parse_record_line, hq, Bool.false_eq_true, if_false]
    split
    · rfl
    · exact changeRecord_untracked st line

/-- C10 witness: the line "?x" is parsed as a change record, not as an
untracked entry. -/
theorem C10_witness :
    RepoStatus.default.parse_record_line (chars "?x") =
      changeRecord RepoStatus.default (chars "?x") :=
  C10_question_no_space.1 RepoStatus.default (chars "?x") (by decide) (by decide)
